import Mathlib

/-!
# Persisted configuration record of the LightShowPi Arduino sketch

Shallow embedding of `Arduino/global.h`: the strip-type constants, the two
generic EEPROM byte-copy templates, the global `config` record and the three
operations `writeConfig`, `readConfig` and `writeDefaultConfig`.

Target conventions (avr-gcc, the compiler of the boards named in the header):
`int` and `unsigned int` are 16 bits wide, every type has alignment 1 (so
`config_t` has no padding) and multi-byte integers are little-endian.

The `EEPROM` object comes from the Arduino core library, which is not part of
the header.  It is embedded as a finite byte-addressed store together with a
log of the accesses performed on it; an access outside the store is a fault.
-/

namespace LightShowPi

/-! ## Constants -/

def GENERIC : Nat := 0
def LPD8806 : Nat := 1
def WS2801 : Nat := 2
def NEOPIXEL : Nat := 3
def WS2811_400 : Nat := 4
def TM1809_TM1804 : Nat := 5
def TM1803 : Nat := 6
def UCS1903 : Nat := 7
def SM16716 : Nat := 8
def APA102 : Nat := 9
def LPD1886 : Nat := 10
def P9813 : Nat := 11

/-- The strip-type constants in the order in which the header defines them. -/
def stripTypes : List Nat :=
  [GENERIC, LPD8806, WS2801, NEOPIXEL, WS2811_400, TM1809_TM1804, TM1803,
   UCS1903, SM16716, APA102, LPD1886, P9813]

/-- Largest value of the target's 16-bit `int`. -/
def INT_MAX : Int := 32767

/-- Number of values of the target's 16-bit `unsigned int`. -/
def UINT_MOD : Nat := 65536

/-- Conversion of an `unsigned int` to `int` (the `return i;` of both
templates): values above `INT_MAX` wrap around. -/
def toInt (i : Nat) : Int :=
  if (i : Int) ≤ INT_MAX then (i : Int) else (i : Int) - (UINT_MOD : Int)

/-! ## The EEPROM object -/

/-- Ways in which a run can go wrong. -/
inductive Fault where
  | eepromRange
  | objectRange
  | intOverflow
  | fuel
deriving DecidableEq

/-- One access to the store. -/
inductive Access where
  | read (idx : Nat)
  | write (idx : Nat) (val : Nat)
deriving DecidableEq

/-- Byte-addressed non-volatile store: its cells, and the accesses performed
so far, oldest first. -/
structure EEPROMClass where
  cells : List Nat
  log : List Access
deriving DecidableEq

/-- Every cell of the store holds a byte. -/
def EEPROMClass.WF (E : EEPROMClass) : Prop :=
  ∀ b ∈ E.cells, b < 256

instance (E : EEPROMClass) : Decidable E.WF := by
  unfold EEPROMClass.WF; infer_instance

/-- The call `EEPROM.read(idx)` of the Arduino core library: returns a
`uint8_t`. -/
def EEPROM.read (E : EEPROMClass) (idx : Int) : Except Fault (Nat × EEPROMClass) :=
  if 0 ≤ idx ∧ idx.toNat < E.cells.length then
    .ok (E.cells.getD idx.toNat 0 % 256,
         { cells := E.cells, log := E.log ++ [Access.read idx.toNat] })
  else .error Fault.eepromRange

/-- The call `EEPROM.write(idx, val)` of the Arduino core library: `val` is
converted to `uint8_t`. -/
def EEPROM.write (E : EEPROMClass) (idx : Int) (val : Nat) : Except Fault EEPROMClass :=
  if 0 ≤ idx ∧ idx.toNat < E.cells.length then
    .ok { cells := E.cells.set idx.toNat (val % 256),
          log := E.log ++ [Access.write idx.toNat (val % 256)] }
  else .error Fault.eepromRange

/-! ## The generic byte-copy templates

A value of a fixed-layout type is passed as its object representation, the
list of its bytes; `sizeof(value)` is the length of that list. -/

/-- The `for` loop of `EEPROM_writeAnything`.  `value` is the object read
through `p`, `sz` is `sizeof(value)`; `ee`, `p` (as an offset into the
object) and `i` are the loop variables.  The first argument bounds the number
of iterations; incrementing `ee` beyond `INT_MAX` is undefined behaviour and
is reported as a fault. -/
def writeLoop (value : List Nat) (sz : Nat) :
    Nat → Int → Nat → Nat → EEPROMClass → Except Fault (Nat × EEPROMClass)
  | 0, _, _, i, E => if i < sz then .error Fault.fuel else .ok (i, E)
  | fuel + 1, ee, p, i, E =>
    if i < sz then
      match value[p]? with
      | none => .error Fault.objectRange
      | some b =>
        if INT_MAX < ee + 1 then .error Fault.intOverflow
        else
          match EEPROM.write E ee b with
          | .error f => .error f
          | .ok E1 => writeLoop value sz fuel (ee + 1) (p + 1) ((i + 1) % UINT_MOD) E1
    else .ok (i, E)

/-- The template `EEPROM_writeAnything(ee, value)`.  The loop is given
`sizeof(value)` iterations, which is what it needs when `i` does not wrap. -/
def EEPROM_writeAnything (ee : Int) (value : List Nat) (E : EEPROMClass) :
    Except Fault (Int × EEPROMClass) :=
  match writeLoop value value.length value.length ee 0 0 E with
  | .error f => .error f
  | .ok (i, E1) => .ok (toInt i, E1)

/-- The `for` loop of `EEPROM_readAnything`.  `value` is the object written
through `p`. -/
def readLoop (sz : Nat) :
    Nat → Int → Nat → Nat → List Nat → EEPROMClass →
      Except Fault (Nat × List Nat × EEPROMClass)
  | 0, _, _, i, value, E => if i < sz then .error Fault.fuel else .ok (i, value, E)
  | fuel + 1, ee, p, i, value, E =>
    if i < sz then
      if INT_MAX < ee + 1 then .error Fault.intOverflow
      else
        match EEPROM.read E ee with
        | .error f => .error f
        | .ok (b, E1) =>
          if p < value.length then
            readLoop sz fuel (ee + 1) (p + 1) ((i + 1) % UINT_MOD) (value.set p b) E1
          else .error Fault.objectRange
    else .ok (i, value, E)

/-- The template `EEPROM_readAnything(ee, value)`: returns the count and the
object as it stands after the call. -/
def EEPROM_readAnything (ee : Int) (value : List Nat) (E : EEPROMClass) :
    Except Fault (Int × List Nat × EEPROMClass) :=
  match readLoop value.length value.length ee 0 0 value E with
  | .error f => .error f
  | .ok (i, value1, E1) => .ok (toInt i, value1, E1)

/-! ## The configuration record -/

/-- The record `config_t`: a `uint8_t`, a `uint16_t` and a `uint8_t`. -/
structure config_t where
  type : Nat
  pixelCount : Nat
  spiSpeed : Nat
deriving DecidableEq

/-- The fields hold values of their C types. -/
def config_t.InRange (c : config_t) : Prop :=
  c.type < 256 ∧ c.pixelCount < 65536 ∧ c.spiSpeed < 256

instance (c : config_t) : Decidable c.InRange := by
  unfold config_t.InRange; infer_instance

/-- Object representation of a `config_t` on the target. -/
def config_t.toBytes (c : config_t) : List Nat :=
  [c.type % 256, c.pixelCount % 256, c.pixelCount / 256 % 256, c.spiSpeed % 256]

/-- The `config_t` denoted by an object representation. -/
def config_t.ofBytes (bs : List Nat) : config_t :=
  { type := bs.getD 0 0
    pixelCount := bs.getD 1 0 + 256 * bs.getD 2 0
    spiSpeed := bs.getD 3 0 }

/-- Global state of the sketch: the variable `config` and the `EEPROM`. -/
structure Sketch where
  config : config_t
  EEPROM : EEPROMClass
deriving DecidableEq

/-- The function `writeConfig()`. -/
def writeConfig (s : Sketch) : Except Fault Sketch :=
  match EEPROM_writeAnything 1 s.config.toBytes s.EEPROM with
  | .error f => .error f
  | .ok (_, E1) => .ok { config := s.config, EEPROM := E1 }

/-- The function `readConfig()`. -/
def readConfig (s : Sketch) : Except Fault Sketch :=
  match EEPROM_readAnything 1 s.config.toBytes s.EEPROM with
  | .error f => .error f
  | .ok (_, bs, E1) => .ok { config := config_t.ofBytes bs, EEPROM := E1 }

/-- The function `writeDefaultConfig()`: the three assignments convert their
right-hand sides to the field types. -/
def writeDefaultConfig (s : Sketch) : Except Fault Sketch :=
  let s1 : Sketch := { s with config := { s.config with type := LPD8806 % 256 } }
  let s2 : Sketch := { s1 with config := { s1.config with pixelCount := 1 % 65536 } }
  let s3 : Sketch := { s2 with config := { s2.config with spiSpeed := 16 % 256 } }
  match writeConfig s3 with
  | .error f => .error f
  | .ok s4 =>
    match EEPROM.write s4.EEPROM 16 0 with
    | .error f => .error f
    | .ok E1 => .ok { config := s4.config, EEPROM := E1 }

/-! ## Specification functions for the two loops -/

/-- Copy `n` bytes from `src`, starting at offset `s`, over `dst`, starting
at offset `d`; every byte is stored as a `uint8_t`. -/
def blit (dst : List Nat) (d : Nat) (src : List Nat) (s : Nat) : Nat → List Nat
  | 0 => dst
  | n + 1 => blit (dst.set d (src.getD s 0 % 256)) (d + 1) src (s + 1) n

/-- The writes of `n` bytes of `src`, from offset `s` on, to the store
offsets `a`, `a + 1`, ... in this order. -/
def writeLog (a : Nat) (src : List Nat) (s : Nat) : Nat → List Access
  | 0 => []
  | n + 1 => Access.write a (src.getD s 0 % 256) :: writeLog (a + 1) src (s + 1) n

/-- The reads of the `n` store offsets `a`, `a + 1`, ... in this order. -/
def readLog (a : Nat) : Nat → List Access
  | 0 => []
  | n + 1 => Access.read a :: readLog (a + 1) n

/-- The store offset that an access addresses. -/
def Access.idx : Access → Nat
  | Access.read i => i
  | Access.write i _ => i

/-- The cells after the four writes of `writeConfig`. -/
def recordCells (cells : List Nat) (c : config_t) : List Nat :=
  (((cells.set 1 (c.type % 256)).set 2 (c.pixelCount % 256)).set 3
    (c.pixelCount / 256 % 256)).set 4 (c.spiSpeed % 256)

/-- The accesses of `writeConfig`. -/
def recordWrites (c : config_t) : List Access :=
  [Access.write 1 (c.type % 256), Access.write 2 (c.pixelCount % 256),
   Access.write 3 (c.pixelCount / 256 % 256), Access.write 4 (c.spiSpeed % 256)]

/-- The accesses of `readConfig`. -/
def recordReads : List Access :=
  [Access.read 1, Access.read 2, Access.read 3, Access.read 4]

/-- The record held by the cells at offsets 1 to 4. -/
def storedConfig (cells : List Nat) : config_t :=
  { type := cells.getD 1 0 % 256
    pixelCount := cells.getD 2 0 % 256 + 256 * (cells.getD 3 0 % 256)
    spiSpeed := cells.getD 4 0 % 256 }

/-- The new accesses of a run from `E` to `E1` all address existing cells. -/
def accessesInRange (E E1 : EEPROMClass) : Prop :=
  ∃ l, E1.log = E.log ++ l ∧ ∀ a ∈ l, a.idx < E.cells.length

/-- The record that `writeDefaultConfig` assigns to `config`. -/
def defaultConfig : config_t :=
  { type := 1, pixelCount := 1, spiSpeed := 16 }

/-! ## Lemmas on the specification functions -/

theorem blit_length (src : List Nat) (n : Nat) :
    ∀ (dst : List Nat) (d s : Nat), (blit dst d src s n).length = dst.length := by
  induction n with
  | zero => intro dst d s; rfl
  | succ n ih => intro dst d s; simp [blit, ih]

theorem blit_getElem?_outside (src : List Nat) (n : Nat) :
    ∀ (dst : List Nat) (d s k : Nat), k < d ∨ d + n ≤ k →
      (blit dst d src s n)[k]? = dst[k]? := by
  induction n with
  | zero => intro dst d s k _; rfl
  | succ n ih =>
    intro dst d s k hk
    have hne : d ≠ k := by omega
    rw [blit, ih _ _ _ _ (by omega), List.getElem?_set_ne hne]

theorem blit_getElem?_inside (src : List Nat) (n : Nat) :
    ∀ (dst : List Nat) (d s j : Nat), j < n → d + j < dst.length →
      (blit dst d src s n)[d + j]? = some (src.getD (s + j) 0 % 256) := by
  induction n with
  | zero => intro dst d s j hj; omega
  | succ n ih =>
    intro dst d s j hj hlen
    rw [blit]
    cases j with
    | zero =>
      rw [blit_getElem?_outside _ _ _ _ _ _ (by omega)]
      simp [List.getElem?_set, hlen]
      omega
    | succ j =>
      have h := ih (dst.set d (src.getD s 0 % 256)) (d + 1) (s + 1) j (by omega)
        (by simp; omega)
      have e1 : d + (j + 1) = d + 1 + j := by omega
      have e2 : s + (j + 1) = s + 1 + j := by omega
      rw [e1, e2]; exact h

theorem writeLog_eq_map (src : List Nat) (n : Nat) :
    ∀ (a s : Nat), writeLog a src s n =
      (List.range n).map (fun k => Access.write (a + k) (src.getD (s + k) 0 % 256)) := by
  induction n with
  | zero => intro a s; rfl
  | succ n ih =>
    intro a s
    rw [writeLog, ih, List.range_succ_eq_map]
    simp [Function.comp_def, Nat.add_assoc, Nat.add_comm 1]

theorem readLog_eq_map (n : Nat) :
    ∀ (a : Nat), readLog a n = (List.range n).map (fun k => Access.read (a + k)) := by
  induction n with
  | zero => intro a; rfl
  | succ n ih =>
    intro a
    rw [readLog, ih, List.range_succ_eq_map]
    simp [Function.comp_def, Nat.add_assoc, Nat.add_comm 1]

/-! ## The loops compute the specification functions -/

theorem writeLoop_eq (value : List Nat) (sz : Nat) (hsz : sz < UINT_MOD) (n : Nat) :
    ∀ (fuel : Nat) (ee : Int) (p i : Nat) (E : EEPROMClass),
      i + n = sz → n ≤ fuel → p + n ≤ value.length → 0 ≤ ee →
      ee.toNat + n ≤ E.cells.length → ee + (n : Int) ≤ INT_MAX →
      writeLoop value sz fuel ee p i E =
        .ok (sz, { cells := blit E.cells ee.toNat value p n,
                   log := E.log ++ writeLog ee.toNat value p n }) := by
  induction n with
  | zero =>
    intro fuel ee p i E hi _ _ _ _ _
    have hlt : ¬ i < sz := by omega
    have hi2 : i = sz := by omega
    cases fuel <;> simp [writeLoop, hlt, blit, writeLog, hi2]
  | succ n ih =>
    intro fuel ee p i E hi hfuel hp hee hlen hmax
    obtain ⟨fuel, rfl⟩ : ∃ f, fuel = f + 1 := ⟨fuel - 1, by omega⟩
    have hlt : i < sz := by omega
    have hpl : p < value.length := by omega
    have hov : ¬ INT_MAX < ee + 1 := by
      simp only [INT_MAX] at hmax ⊢; omega
    have hin : 0 ≤ ee ∧ ee.toNat < E.cells.length := ⟨hee, by omega⟩
    have hmod : (i + 1) % UINT_MOD = i + 1 := Nat.mod_eq_of_lt (by omega)
    have hnat : (ee + 1).toNat = ee.toNat + 1 := by omega
    rw [writeLoop]
    simp only [hlt, if_true, List.getElem?_eq_getElem hpl, hov, if_false, EEPROM.write, hin,
      and_self, hmod]
    rw [ih fuel (ee + 1) (p + 1) (i + 1) _ (by omega) (by omega) (by omega) (by omega)
      (by simp [hnat]; omega) (by push_cast at hmax ⊢; omega)]
    simp [blit, writeLog, hnat, List.getElem?_eq_getElem hpl]

theorem readLoop_eq (sz : Nat) (hsz : sz < UINT_MOD) (n : Nat) :
    ∀ (fuel : Nat) (ee : Int) (p i : Nat) (value : List Nat) (E : EEPROMClass),
      i + n = sz → n ≤ fuel → p + n ≤ value.length → 0 ≤ ee →
      ee.toNat + n ≤ E.cells.length → ee + (n : Int) ≤ INT_MAX →
      readLoop sz fuel ee p i value E =
        .ok (sz, blit value p E.cells ee.toNat n,
             { cells := E.cells, log := E.log ++ readLog ee.toNat n }) := by
  induction n with
  | zero =>
    intro fuel ee p i value E hi _ _ _ _ _
    have hlt : ¬ i < sz := by omega
    have hi2 : i = sz := by omega
    cases fuel <;> simp [readLoop, hlt, blit, readLog, hi2]
  | succ n ih =>
    intro fuel ee p i value E hi hfuel hp hee hlen hmax
    obtain ⟨fuel, rfl⟩ : ∃ f, fuel = f + 1 := ⟨fuel - 1, by omega⟩
    have hlt : i < sz := by omega
    have hpl : p < value.length := by omega
    have hov : ¬ INT_MAX < ee + 1 := by
      simp only [INT_MAX] at hmax ⊢; omega
    have hin : 0 ≤ ee ∧ ee.toNat < E.cells.length := ⟨hee, by omega⟩
    have hmod : (i + 1) % UINT_MOD = i + 1 := Nat.mod_eq_of_lt (by omega)
    have hnat : (ee + 1).toNat = ee.toNat + 1 := by omega
    rw [readLoop]
    simp only [hlt, if_true, hov, if_false, EEPROM.read, hin, and_self, hmod, hpl]
    rw [ih fuel (ee + 1) (p + 1) (i + 1) _ _ (by omega) (by omega) (by simp; omega) (by omega)
      (by simp [hnat]; omega) (by push_cast at hmax ⊢; omega)]
    simp [blit, readLog, hnat]

theorem toInt_of_le (n : Nat) (h : (n : Int) ≤ INT_MAX) : toInt n = (n : Int) := by
  simp [toInt, h]

theorem EEPROM_writeAnything_eq (ee : Int) (value : List Nat) (E : EEPROMClass)
    (hee : 0 ≤ ee) (hlen : ee.toNat + value.length ≤ E.cells.length)
    (hmax : ee + (value.length : Int) ≤ INT_MAX) :
    EEPROM_writeAnything ee value E =
      .ok ((value.length : Int),
           { cells := blit E.cells ee.toNat value 0 value.length,
             log := E.log ++ writeLog ee.toNat value 0 value.length }) := by
  have hsz : value.length < UINT_MOD := by
    simp only [INT_MAX] at hmax; simp only [UINT_MOD]; omega
  rw [EEPROM_writeAnything, writeLoop_eq value value.length hsz value.length value.length ee 0 0 E
    (by omega) (by omega) (by omega) hee hlen hmax]
  simp only [toInt_of_le value.length (by omega)]

theorem EEPROM_readAnything_eq (ee : Int) (value : List Nat) (E : EEPROMClass)
    (hee : 0 ≤ ee) (hlen : ee.toNat + value.length ≤ E.cells.length)
    (hmax : ee + (value.length : Int) ≤ INT_MAX) :
    EEPROM_readAnything ee value E =
      .ok ((value.length : Int), blit value 0 E.cells ee.toNat value.length,
           { cells := E.cells, log := E.log ++ readLog ee.toNat value.length }) := by
  have hsz : value.length < UINT_MOD := by
    simp only [INT_MAX] at hmax; simp only [UINT_MOD]; omega
  rw [EEPROM_readAnything, readLoop_eq value.length hsz value.length value.length ee 0 0 value E
    (by omega) (by omega) (by omega) hee hlen hmax]
  simp only [toInt_of_le value.length (by omega)]

/-! ## The three configuration operations in closed form -/

theorem writeConfig_eq (c : config_t) (E : EEPROMClass) (h : 5 ≤ E.cells.length) :
    writeConfig { config := c, EEPROM := E } =
      .ok { config := c,
            EEPROM := { cells := recordCells E.cells c, log := E.log ++ recordWrites c } } := by
  rw [writeConfig, EEPROM_writeAnything_eq 1 c.toBytes E (by decide)
    (by simp [config_t.toBytes]; omega) (by simp [config_t.toBytes, INT_MAX])]
  simp [config_t.toBytes, blit, writeLog, recordCells, recordWrites]

theorem readConfig_eq (c : config_t) (E : EEPROMClass) (h : 5 ≤ E.cells.length) :
    readConfig { config := c, EEPROM := E } =
      .ok { config := storedConfig E.cells,
            EEPROM := { cells := E.cells, log := E.log ++ recordReads } } := by
  rw [readConfig, EEPROM_readAnything_eq 1 c.toBytes E (by decide)
    (by simp [config_t.toBytes]; omega) (by simp [config_t.toBytes, INT_MAX])]
  simp [config_t.toBytes, blit, readLog, recordReads, storedConfig, config_t.ofBytes]

theorem recordCells_length (cells : List Nat) (c : config_t) :
    (recordCells cells c).length = cells.length := by
  simp [recordCells]

theorem storedConfig_recordCells (cells : List Nat) (c : config_t) (h : 5 ≤ cells.length)
    (hc : c.InRange) : storedConfig (recordCells cells c) = c := by
  obtain ⟨h1, h2, h3⟩ := hc
  cases c with
  | mk t pc sp =>
    simp only at h1 h2 h3
    simp only [storedConfig, recordCells, List.getD_eq_getElem?_getD, List.getElem?_set,
      List.length_set]
    simp
    have e1 : (1 < cells.length) = True := by simp; omega
    have e2 : (2 < cells.length) = True := by simp; omega
    have e3 : (3 < cells.length) = True := by simp; omega
    have e4 : (4 < cells.length) = True := by simp; omega
    simp [e1, e2, e3, e4]
    omega

theorem writeDefaultConfig_eq (c0 : config_t) (E : EEPROMClass) (h : 17 ≤ E.cells.length) :
    writeDefaultConfig { config := c0, EEPROM := E } =
      .ok { config := defaultConfig,
            EEPROM := { cells := (recordCells E.cells defaultConfig).set 16 0,
                        log := E.log ++ recordWrites defaultConfig ++ [Access.write 16 0] } } := by
  have h5 : 5 ≤ E.cells.length := by omega
  have hin : (0 : Int) ≤ 16 ∧ (16 : Int).toNat < (recordCells E.cells defaultConfig).length := by
    rw [recordCells_length]; constructor
    · decide
    · show 16 < E.cells.length; omega
  simp only [writeDefaultConfig, LPD8806]
  rw [show ({ type := 1 % 256, pixelCount := 1 % 65536, spiSpeed := 16 % 256 } : config_t)
    = defaultConfig from rfl]
  rw [writeConfig_eq defaultConfig E h5]
  simp only [EEPROM.write, hin, and_self, if_true]
  rfl

/-- C1: a configuration written by `writeConfig` and read back by `readConfig`
after the in-memory `config` was replaced by any other value (a power cycle)
is the configuration that was written, field for field. -/
theorem config_round_trip (c c1 : config_t) (E : EEPROMClass) (hc : c.InRange)
    (hlen : 5 ≤ E.cells.length) :
    ∃ s1, writeConfig { config := c, EEPROM := E } = .ok s1 ∧
      ∃ s2, readConfig { config := c1, EEPROM := s1.EEPROM } = .ok s2 ∧ s2.config = c := by
  refine ⟨_, writeConfig_eq c E hlen, _, readConfig_eq c1 _ ?_, ?_⟩
  · simp only [recordCells_length]; exact hlen
  · exact storedConfig_recordCells E.cells c hlen hc

/-- The scenario of the specification: `{3, 150, 0}` written over an erased
store is read back as `{3, 150, 0}` after a power cycle. -/
theorem config_round_trip_witness :
    (({ type := 3, pixelCount := 150, spiSpeed := 0 } : config_t).InRange ∧
      5 ≤ (List.replicate 8 255).length) ∧
    ∃ s1, writeConfig { config := { type := 3, pixelCount := 150, spiSpeed := 0 },
                        EEPROM := { cells := List.replicate 8 255, log := [] } } = .ok s1 ∧
      ∃ s2, readConfig { config := { type := 0, pixelCount := 0, spiSpeed := 0 },
                         EEPROM := s1.EEPROM } = .ok s2 ∧
        s2.config = { type := 3, pixelCount := 150, spiSpeed := 0 } :=
  ⟨⟨by decide, by decide⟩,
   config_round_trip { type := 3, pixelCount := 150, spiSpeed := 0 }
     { type := 0, pixelCount := 0, spiSpeed := 0 }
     { cells := List.replicate 8 255, log := [] } (by decide) (by decide)⟩

/-- C2: `writeDefaultConfig` leaves `config` equal to `{1, 1, 16}`; a
`readConfig` run right after it yields `{1, 1, 16}`, and so does a `readConfig`
run on the resulting store from any other in-memory `config`, so the record is
read back from the store. -/
theorem writeDefaultConfig_then_readConfig (c0 : config_t) (E : EEPROMClass)
    (hlen : 17 ≤ E.cells.length) :
    ∃ s1, writeDefaultConfig { config := c0, EEPROM := E } = .ok s1 ∧
      s1.config = { type := 1, pixelCount := 1, spiSpeed := 16 } ∧
      (∃ s2, readConfig s1 = .ok s2 ∧
        s2.config = { type := 1, pixelCount := 1, spiSpeed := 16 }) ∧
      ∀ c1 : config_t, ∃ s2, readConfig { config := c1, EEPROM := s1.EEPROM } = .ok s2 ∧
        s2.config = { type := 1, pixelCount := 1, spiSpeed := 16 } := by
  have h5 : 5 ≤ E.cells.length := by omega
  have hl : 5 ≤ ((recordCells E.cells defaultConfig).set 16 0).length := by
    simp only [List.length_set, recordCells_length]; exact h5
  have hst : storedConfig ((recordCells E.cells defaultConfig).set 16 0)
      = { type := 1, pixelCount := 1, spiSpeed := 16 } := by
    have h := storedConfig_recordCells E.cells defaultConfig h5 (by decide)
    simp only [storedConfig, List.getD_eq_getElem?_getD] at h ⊢
    rw [List.getElem?_set_ne (by decide), List.getElem?_set_ne (by decide),
      List.getElem?_set_ne (by decide), List.getElem?_set_ne (by decide)]
    exact h
  refine ⟨_, writeDefaultConfig_eq c0 E hlen, rfl, ⟨_, readConfig_eq _ _ hl, hst⟩, ?_⟩
  intro c1
  exact ⟨_, readConfig_eq c1 _ hl, hst⟩

theorem writeDefaultConfig_then_readConfig_witness :
    17 ≤ (List.replicate 32 255).length ∧
    ∃ s1, writeDefaultConfig { config := { type := 9, pixelCount := 300, spiSpeed := 2 },
                               EEPROM := { cells := List.replicate 32 255, log := [] } } = .ok s1 ∧
      s1.config = { type := 1, pixelCount := 1, spiSpeed := 16 } ∧
      (∃ s2, readConfig s1 = .ok s2 ∧
        s2.config = { type := 1, pixelCount := 1, spiSpeed := 16 }) ∧
      ∀ c1 : config_t, ∃ s2, readConfig { config := c1, EEPROM := s1.EEPROM } = .ok s2 ∧
        s2.config = { type := 1, pixelCount := 1, spiSpeed := 16 } :=
  ⟨by decide,
   writeDefaultConfig_then_readConfig { type := 9, pixelCount := 300, spiSpeed := 2 }
     { cells := List.replicate 32 255, log := [] } (by decide)⟩

/-- C3: after `writeDefaultConfig` the cell at offset 16 holds 0, whatever it
held before. -/
theorem writeDefaultConfig_marker (c0 : config_t) (E : EEPROMClass)
    (hlen : 17 ≤ E.cells.length) :
    ∃ s1, writeDefaultConfig { config := c0, EEPROM := E } = .ok s1 ∧
      s1.EEPROM.cells[16]? = some 0 := by
  refine ⟨_, writeDefaultConfig_eq c0 E hlen, ?_⟩
  simp only [List.getElem?_set_self, recordCells_length, List.getElem?_set]
  simp; omega

theorem writeDefaultConfig_marker_witness :
    17 ≤ (List.replicate 32 255).length ∧
    ∃ s1, writeDefaultConfig { config := { type := 9, pixelCount := 300, spiSpeed := 2 },
                               EEPROM := { cells := List.replicate 32 255, log := [] } } = .ok s1 ∧
      s1.EEPROM.cells[16]? = some 0 :=
  ⟨by decide,
   writeDefaultConfig_marker { type := 9, pixelCount := 300, spiSpeed := 2 }
     { cells := List.replicate 32 255, log := [] } (by decide)⟩

/-- C4: on a value of `N` bytes, at an offset `ee` with `[ee, ee + N)` inside
the store and `ee + N` representable in `int`, `EEPROM_writeAnything` performs
exactly the `N` writes at offsets `ee`, `ee + 1`, ..., `ee + N - 1`, in this
order, and returns `N`; `EEPROM_readAnything` performs exactly the `N` reads at
the same offsets in the same order and returns `N`. -/
theorem EEPROM_anything_transfers_sizeof (ee : Int) (value : List Nat) (E : EEPROMClass)
    (hee : 0 ≤ ee) (hlen : ee.toNat + value.length ≤ E.cells.length)
    (hmax : ee + (value.length : Int) ≤ INT_MAX) :
    (∃ E1, EEPROM_writeAnything ee value E = .ok ((value.length : Int), E1) ∧
      E1.log = E.log ++ (List.range value.length).map
        (fun k => Access.write (ee.toNat + k) (value.getD k 0 % 256))) ∧
    (∃ value1 E1, EEPROM_readAnything ee value E = .ok ((value.length : Int), value1, E1) ∧
      E1.log = E.log ++ (List.range value.length).map
        (fun k => Access.read (ee.toNat + k))) := by
  refine ⟨⟨_, EEPROM_writeAnything_eq ee value E hee hlen hmax, ?_⟩,
    ⟨_, _, EEPROM_readAnything_eq ee value E hee hlen hmax, ?_⟩⟩
  · simp [writeLog_eq_map]
  · simp [readLog_eq_map]

theorem EEPROM_anything_transfers_sizeof_witness :
    ((0 : Int) ≤ 1 ∧ (1 : Int).toNat + [3, 150, 0, 0].length ≤ (List.replicate 8 255).length ∧
      (1 : Int) + (([3, 150, 0, 0] : List Nat).length : Int) ≤ INT_MAX) ∧
    ((∃ E1, EEPROM_writeAnything 1 [3, 150, 0, 0] { cells := List.replicate 8 255, log := [] }
        = .ok ((([3, 150, 0, 0] : List Nat).length : Int), E1) ∧
      E1.log = [] ++ (List.range ([3, 150, 0, 0] : List Nat).length).map
        (fun k => Access.write ((1 : Int).toNat + k) (([3, 150, 0, 0] : List Nat).getD k 0 % 256))) ∧
    (∃ value1 E1, EEPROM_readAnything 1 [3, 150, 0, 0] { cells := List.replicate 8 255, log := [] }
        = .ok ((([3, 150, 0, 0] : List Nat).length : Int), value1, E1) ∧
      E1.log = [] ++ (List.range ([3, 150, 0, 0] : List Nat).length).map
        (fun k => Access.read ((1 : Int).toNat + k)))) :=
  ⟨⟨by decide, by decide, by decide⟩,
   EEPROM_anything_transfers_sizeof 1 [3, 150, 0, 0] { cells := List.replicate 8 255, log := [] }
     (by decide) (by decide) (by decide)⟩

theorem getD_mod_of_bytes (value : List Nat) (hb : ∀ x ∈ value, x < 256) (j : Nat)
    (hj : j < value.length) : value.getD j 0 % 256 = value[j] := by
  have hx : value[j] < 256 := hb _ (List.getElem_mem hj)
  simp [List.getD_eq_getElem?_getD, List.getElem?_eq_getElem hj, Nat.mod_eq_of_lt hx]

/-- C5: `EEPROM_writeAnything(ee, v)` on a value of `N` bytes leaves every cell
outside `[ee, ee + N)` unchanged and sets the cells of `[ee, ee + N)` to the
bytes of `v`; hence after a second value `b` is written at an offset range
`[eb, eb + Nb)` disjoint from `[ee, ee + N)`, `EEPROM_readAnything(ee, ·)`
still returns `v`. -/
theorem EEPROM_writeAnything_frame (ee : Int) (v : List Nat) (E : EEPROMClass)
    (hv : ∀ x ∈ v, x < 256) (hee : 0 ≤ ee) (hlen : ee.toNat + v.length ≤ E.cells.length)
    (hmax : ee + (v.length : Int) ≤ INT_MAX) :
    ∃ n E1, EEPROM_writeAnything ee v E = .ok (n, E1) ∧
      (∀ k, k < ee.toNat ∨ ee.toNat + v.length ≤ k → E1.cells[k]? = E.cells[k]?) ∧
      (∀ j, j < v.length → E1.cells[ee.toNat + j]? = v[j]?) ∧
      ∀ (eb : Int) (b buf : List Nat), buf.length = v.length → 0 ≤ eb →
        eb.toNat + b.length ≤ E1.cells.length → eb + (b.length : Int) ≤ INT_MAX →
        (∀ k, ee.toNat ≤ k → k < ee.toNat + v.length →
          ¬ (eb.toNat ≤ k ∧ k < eb.toNat + b.length)) →
        ∃ m E2, EEPROM_writeAnything eb b E1 = .ok (m, E2) ∧
          ∃ r E3, EEPROM_readAnything ee buf E2 = .ok (r, v, E3) := by
  refine ⟨_, _, EEPROM_writeAnything_eq ee v E hee hlen hmax, ?_, ?_, ?_⟩
  · intro k hk
    exact blit_getElem?_outside v v.length E.cells ee.toNat 0 k hk
  · intro j hj
    have h := blit_getElem?_inside v v.length E.cells ee.toNat 0 j hj (by omega)
    simp only at h ⊢
    rw [h, Nat.zero_add, getD_mod_of_bytes v hv j hj, List.getElem?_eq_getElem hj]
  · intro eb b buf hbuf heb hlenb hmaxb hdisj
    simp only [blit_length] at hlenb
    have hl1 : (blit E.cells ee.toNat v 0 v.length).length = E.cells.length := blit_length _ _ _ _ _
    refine ⟨_, _, EEPROM_writeAnything_eq eb b _ heb (by simp only [hl1]; exact hlenb) hmaxb, ?_⟩
    have hl2 : (blit (blit E.cells ee.toNat v 0 v.length) eb.toNat b 0 b.length).length
        = E.cells.length := by rw [blit_length, hl1]
    have hr := EEPROM_readAnything_eq ee buf
      { cells := blit (blit E.cells ee.toNat v 0 v.length) eb.toNat b 0 b.length,
        log := (E.log ++ writeLog ee.toNat v 0 v.length) ++ writeLog eb.toNat b 0 b.length }
      hee (by simp only [hl2, hbuf]; exact hlen) (by rw [hbuf]; exact hmax)
    have hkey : blit buf 0 (blit (blit E.cells ee.toNat v 0 v.length) eb.toNat b 0 b.length)
        ee.toNat buf.length = v := by
      apply List.ext_getElem?
      intro k
      by_cases hk : k < v.length
      · have h1 := blit_getElem?_inside
          (blit (blit E.cells ee.toNat v 0 v.length) eb.toNat b 0 b.length) buf.length buf 0
          ee.toNat k (by omega) (by omega)
        rw [Nat.zero_add] at h1
        rw [h1]
        have h2 : (blit (blit E.cells ee.toNat v 0 v.length) eb.toNat b 0 b.length)[ee.toNat + k]?
            = some (v.getD k 0 % 256) := by
          have hd := hdisj (ee.toNat + k) (by omega) (by omega)
          rw [blit_getElem?_outside b b.length _ eb.toNat 0 (ee.toNat + k) (by omega)]
          have h3 := blit_getElem?_inside v v.length E.cells ee.toNat 0 k hk (by omega)
          rw [Nat.zero_add] at h3
          exact h3
        rw [List.getD_eq_getElem?_getD, h2, Option.getD_some, Nat.mod_mod,
          getD_mod_of_bytes v hv k hk, List.getElem?_eq_getElem hk]
      · rw [blit_getElem?_outside _ _ _ _ _ _ (by omega)]
        rw [List.getElem?_eq_none (by omega), List.getElem?_eq_none (by omega)]
    simp only at hr
    rw [hkey] at hr
    exact ⟨_, _, hr⟩

theorem EEPROM_writeAnything_frame_witness :
    ((∀ x ∈ ([3, 150, 0, 0] : List Nat), x < 256) ∧ (0 : Int) ≤ 1 ∧
      (1 : Int).toNat + ([3, 150, 0, 0] : List Nat).length ≤ (List.replicate 32 255).length ∧
      (1 : Int) + (([3, 150, 0, 0] : List Nat).length : Int) ≤ INT_MAX) ∧
    ∃ n E1, EEPROM_writeAnything 1 [3, 150, 0, 0]
        { cells := List.replicate 32 255, log := [] } = .ok (n, E1) ∧
      (∀ k, k < (1 : Int).toNat ∨ (1 : Int).toNat + ([3, 150, 0, 0] : List Nat).length ≤ k →
        E1.cells[k]? = (List.replicate 32 255)[k]?) ∧
      (∀ j, j < ([3, 150, 0, 0] : List Nat).length →
        E1.cells[(1 : Int).toNat + j]? = ([3, 150, 0, 0] : List Nat)[j]?) ∧
      ∀ (eb : Int) (b buf : List Nat), buf.length = ([3, 150, 0, 0] : List Nat).length → 0 ≤ eb →
        eb.toNat + b.length ≤ E1.cells.length → eb + (b.length : Int) ≤ INT_MAX →
        (∀ k, (1 : Int).toNat ≤ k → k < (1 : Int).toNat + ([3, 150, 0, 0] : List Nat).length →
          ¬ (eb.toNat ≤ k ∧ k < eb.toNat + b.length)) →
        ∃ m E2, EEPROM_writeAnything eb b E1 = .ok (m, E2) ∧
          ∃ r E3, EEPROM_readAnything 1 buf E2 = .ok (r, [3, 150, 0, 0], E3) :=
  ⟨⟨by decide, by decide, by decide, by decide⟩,
   EEPROM_writeAnything_frame 1 [3, 150, 0, 0] { cells := List.replicate 32 255, log := [] }
     (by decide) (by decide) (by decide) (by decide)⟩

theorem recordCells_getElem? (cells : List Nat) (c : config_t) (h : 5 ≤ cells.length) :
    (recordCells cells c)[1]? = some (c.type % 256) ∧
    (recordCells cells c)[2]? = some (c.pixelCount % 256) ∧
    (recordCells cells c)[3]? = some (c.pixelCount / 256 % 256) ∧
    (recordCells cells c)[4]? = some (c.spiSpeed % 256) ∧
    ∀ k, k = 0 ∨ 5 ≤ k → (recordCells cells c)[k]? = cells[k]? := by
  have e1 : 1 < cells.length := by omega
  have e2 : 2 < cells.length := by omega
  have e3 : 3 < cells.length := by omega
  have e4 : 4 < cells.length := by omega
  refine ⟨?_, ?_, ?_, ?_, ?_⟩
  · simp [recordCells, List.getElem?_set, e1]
  · simp [recordCells, List.getElem?_set, e2]
  · simp [recordCells, List.getElem?_set, e3]
  · simp [recordCells, List.getElem?_set, e4]
  · intro k hk
    simp only [recordCells]
    rw [List.getElem?_set_ne (by omega), List.getElem?_set_ne (by omega),
      List.getElem?_set_ne (by omega), List.getElem?_set_ne (by omega)]

/-- C6: after `writeConfig` the record occupies exactly the four cells at
offsets 1 to 4, in field-declaration order and without padding: offset 1 holds
`type`, offset 2 the low byte and offset 3 the high byte of `pixelCount`,
offset 4 holds `spiSpeed`; the four writes go to these offsets in this order
and every other cell keeps its value. -/
theorem writeConfig_layout (c : config_t) (E : EEPROMClass) (hc : c.InRange)
    (hlen : 5 ≤ E.cells.length) :
    c.toBytes.length = 4 ∧
    ∃ s1, writeConfig { config := c, EEPROM := E } = .ok s1 ∧
      s1.EEPROM.cells[1]? = some c.type ∧
      s1.EEPROM.cells[2]? = some (c.pixelCount % 256) ∧
      s1.EEPROM.cells[3]? = some (c.pixelCount / 256) ∧
      s1.EEPROM.cells[4]? = some c.spiSpeed ∧
      (∀ k, k = 0 ∨ 5 ≤ k → s1.EEPROM.cells[k]? = E.cells[k]?) ∧
      s1.EEPROM.log = E.log ++ [Access.write 1 c.type, Access.write 2 (c.pixelCount % 256),
        Access.write 3 (c.pixelCount / 256), Access.write 4 c.spiSpeed] := by
  obtain ⟨h1, h2, h3⟩ := hc
  have m1 : c.type % 256 = c.type := Nat.mod_eq_of_lt h1
  have m2 : c.pixelCount / 256 % 256 = c.pixelCount / 256 := Nat.mod_eq_of_lt (by omega)
  have m3 : c.spiSpeed % 256 = c.spiSpeed := Nat.mod_eq_of_lt h3
  obtain ⟨g1, g2, g3, g4, g5⟩ := recordCells_getElem? E.cells c hlen
  rw [m1] at g1; rw [m2] at g3; rw [m3] at g4
  refine ⟨rfl, _, writeConfig_eq c E hlen, g1, g2, g3, g4, g5, ?_⟩
  simp only [recordWrites, m1, m2, m3]

theorem writeConfig_layout_witness :
    (({ type := 3, pixelCount := 300, spiSpeed := 7 } : config_t).InRange ∧
      5 ≤ (List.replicate 8 255).length) ∧
    ({ type := 3, pixelCount := 300, spiSpeed := 7 } : config_t).toBytes.length = 4 ∧
    ∃ s1, writeConfig { config := { type := 3, pixelCount := 300, spiSpeed := 7 },
                        EEPROM := { cells := List.replicate 8 255, log := [] } } = .ok s1 ∧
      s1.EEPROM.cells[1]? = some 3 ∧
      s1.EEPROM.cells[2]? = some (300 % 256) ∧
      s1.EEPROM.cells[3]? = some (300 / 256) ∧
      s1.EEPROM.cells[4]? = some 7 ∧
      (∀ k, k = 0 ∨ 5 ≤ k → s1.EEPROM.cells[k]? = (List.replicate 8 255)[k]?) ∧
      s1.EEPROM.log = [] ++ [Access.write 1 3, Access.write 2 (300 % 256),
        Access.write 3 (300 / 256), Access.write 4 7] :=
  ⟨⟨by decide, by decide⟩,
   writeConfig_layout { type := 3, pixelCount := 300, spiSpeed := 7 }
     { cells := List.replicate 8 255, log := [] } (by decide) (by decide)⟩

theorem accessesInRange_of_log (E E1 : EEPROMClass) (l : List Access)
    (h : E1.log = E.log ++ l) (hl : ∀ a ∈ l, a.idx < E.cells.length) :
    accessesInRange E E1 :=
  ⟨l, h, hl⟩

/-- C7: the marker offset 16 lies outside the record's byte range
`[1, 1 + sizeof(config_t))`; `writeDefaultConfig` changes the store only at
offsets 1 to 4 and 16, and the marker write leaves the record bytes `1, 1, 0,
16` in place; `writeConfig` alone leaves offsets 0 and 16 unchanged. -/
theorem writeDefaultConfig_frame (c0 : config_t) (E : EEPROMClass)
    (hlen : 17 ≤ E.cells.length) :
    (∀ c : config_t, ¬ (1 ≤ 16 ∧ 16 < 1 + c.toBytes.length)) ∧
    (∃ s1, writeDefaultConfig { config := c0, EEPROM := E } = .ok s1 ∧
      (∀ k, k ≠ 1 → k ≠ 2 → k ≠ 3 → k ≠ 4 → k ≠ 16 → s1.EEPROM.cells[k]? = E.cells[k]?) ∧
      s1.EEPROM.cells[1]? = some 1 ∧ s1.EEPROM.cells[2]? = some 1 ∧
      s1.EEPROM.cells[3]? = some 0 ∧ s1.EEPROM.cells[4]? = some 16) ∧
    (∃ s1, writeConfig { config := c0, EEPROM := E } = .ok s1 ∧
      s1.EEPROM.cells[0]? = E.cells[0]? ∧ s1.EEPROM.cells[16]? = E.cells[16]?) := by
  have h5 : 5 ≤ E.cells.length := by omega
  obtain ⟨g1, g2, g3, g4, g5⟩ := recordCells_getElem? E.cells defaultConfig h5
  obtain ⟨_, _, _, _, f5⟩ := recordCells_getElem? E.cells c0 h5
  refine ⟨?_, ⟨_, writeDefaultConfig_eq c0 E hlen, ?_, ?_, ?_, ?_, ?_⟩,
    ⟨_, writeConfig_eq c0 E h5, f5 0 (by omega), f5 16 (by omega)⟩⟩
  · intro c; simp [config_t.toBytes]
  · intro k k1 k2 k3 k4 k16
    simp only
    rw [List.getElem?_set_ne (by omega)]
    exact g5 k (by omega)
  · simp only; rw [List.getElem?_set_ne (by decide)]; exact g1
  · simp only; rw [List.getElem?_set_ne (by decide)]; exact g2
  · simp only; rw [List.getElem?_set_ne (by decide)]; exact g3
  · simp only; rw [List.getElem?_set_ne (by decide)]; exact g4

theorem writeDefaultConfig_frame_witness :
    17 ≤ (List.replicate 32 255).length ∧
    ((∀ c : config_t, ¬ (1 ≤ 16 ∧ 16 < 1 + c.toBytes.length)) ∧
    (∃ s1, writeDefaultConfig { config := { type := 9, pixelCount := 300, spiSpeed := 2 },
                                EEPROM := { cells := List.replicate 32 255, log := [] } } = .ok s1 ∧
      (∀ k, k ≠ 1 → k ≠ 2 → k ≠ 3 → k ≠ 4 → k ≠ 16 →
        s1.EEPROM.cells[k]? = (List.replicate 32 255)[k]?) ∧
      s1.EEPROM.cells[1]? = some 1 ∧ s1.EEPROM.cells[2]? = some 1 ∧
      s1.EEPROM.cells[3]? = some 0 ∧ s1.EEPROM.cells[4]? = some 16) ∧
    (∃ s1, writeConfig { config := { type := 9, pixelCount := 300, spiSpeed := 2 },
                         EEPROM := { cells := List.replicate 32 255, log := [] } } = .ok s1 ∧
      s1.EEPROM.cells[0]? = (List.replicate 32 255)[0]? ∧
      s1.EEPROM.cells[16]? = (List.replicate 32 255)[16]?)) :=
  ⟨by decide,
   writeDefaultConfig_frame { type := 9, pixelCount := 300, spiSpeed := 2 }
     { cells := List.replicate 32 255, log := [] } (by decide)⟩

theorem storedConfig_inRange (cells : List Nat) : (storedConfig cells).InRange := by
  refine ⟨?_, ?_, ?_⟩ <;> simp only [storedConfig] <;> omega

/-- C8: on a store of at least 17 cells `readConfig`, `writeConfig` and
`writeDefaultConfig` all complete, and every access they make addresses an
existing cell; `readConfig` yields a configuration whatever the cells at
offsets 1 to 4 hold: `{255, 65535, 255}` when all four hold `0xFF`, and
`{0, 0, 0}` when all four hold `0x00`. -/
theorem config_operations_cannot_fail (s : Sketch) (hlen : 17 ≤ s.EEPROM.cells.length) :
    (∃ s1, readConfig s = .ok s1 ∧ accessesInRange s.EEPROM s1.EEPROM ∧ s1.config.InRange) ∧
    (∃ s1, writeConfig s = .ok s1 ∧ accessesInRange s.EEPROM s1.EEPROM) ∧
    (∃ s1, writeDefaultConfig s = .ok s1 ∧ accessesInRange s.EEPROM s1.EEPROM) ∧
    ((∀ k, 1 ≤ k → k ≤ 4 → s.EEPROM.cells[k]? = some 255) →
      ∃ s1, readConfig s = .ok s1 ∧
        s1.config = { type := 255, pixelCount := 65535, spiSpeed := 255 }) ∧
    ((∀ k, 1 ≤ k → k ≤ 4 → s.EEPROM.cells[k]? = some 0) →
      ∃ s1, readConfig s = .ok s1 ∧
        s1.config = { type := 0, pixelCount := 0, spiSpeed := 0 }) := by
  obtain ⟨c, E⟩ := s
  simp only at hlen
  have h5 : 5 ≤ E.cells.length := by omega
  refine ⟨⟨_, readConfig_eq c E h5, ?_, storedConfig_inRange _⟩,
    ⟨_, writeConfig_eq c E h5, ?_⟩, ⟨_, writeDefaultConfig_eq c E hlen, ?_⟩, ?_, ?_⟩
  · refine accessesInRange_of_log _ _ recordReads rfl ?_
    intro a ha
    simp only [recordReads, List.mem_cons, List.mem_singleton, List.not_mem_nil, or_false] at ha
    rcases ha with rfl | rfl | rfl | rfl <;> simp only [Access.idx] <;> omega
  · refine accessesInRange_of_log _ _ (recordWrites c) rfl ?_
    intro a ha
    simp only [recordWrites, List.mem_cons, List.mem_singleton, List.not_mem_nil, or_false] at ha
    rcases ha with rfl | rfl | rfl | rfl <;> simp only [Access.idx] <;> omega
  · refine accessesInRange_of_log _ _ (recordWrites defaultConfig ++ [Access.write 16 0])
      (by simp) ?_
    intro a ha
    simp only [recordWrites, List.mem_cons, List.mem_singleton, List.not_mem_nil, or_false,
      List.mem_append] at ha
    rcases ha with (rfl | rfl | rfl | rfl) | rfl <;> simp only [Access.idx] <;> omega
  · intro h
    refine ⟨_, readConfig_eq c E h5, ?_⟩
    simp only [storedConfig, List.getD_eq_getElem?_getD, h 1 (by omega) (by omega),
      h 2 (by omega) (by omega), h 3 (by omega) (by omega), h 4 (by omega) (by omega)]
    rfl
  · intro h
    refine ⟨_, readConfig_eq c E h5, ?_⟩
    simp only [storedConfig, List.getD_eq_getElem?_getD, h 1 (by omega) (by omega),
      h 2 (by omega) (by omega), h 3 (by omega) (by omega), h 4 (by omega) (by omega)]
    rfl

theorem config_operations_cannot_fail_witness :
    17 ≤ (List.replicate 32 255).length ∧
    ((∃ s1, readConfig { config := { type := 9, pixelCount := 300, spiSpeed := 2 },
                         EEPROM := { cells := List.replicate 32 255, log := [] } } = .ok s1 ∧
        accessesInRange { cells := List.replicate 32 255, log := [] } s1.EEPROM ∧
        s1.config.InRange) ∧
    (∃ s1, writeConfig { config := { type := 9, pixelCount := 300, spiSpeed := 2 },
                         EEPROM := { cells := List.replicate 32 255, log := [] } } = .ok s1 ∧
        accessesInRange { cells := List.replicate 32 255, log := [] } s1.EEPROM) ∧
    (∃ s1, writeDefaultConfig { config := { type := 9, pixelCount := 300, spiSpeed := 2 },
                                EEPROM := { cells := List.replicate 32 255, log := [] } } = .ok s1 ∧
        accessesInRange { cells := List.replicate 32 255, log := [] } s1.EEPROM) ∧
    ((∀ k, 1 ≤ k → k ≤ 4 → (List.replicate 32 255)[k]? = some 255) →
      ∃ s1, readConfig { config := { type := 9, pixelCount := 300, spiSpeed := 2 },
                         EEPROM := { cells := List.replicate 32 255, log := [] } } = .ok s1 ∧
        s1.config = { type := 255, pixelCount := 65535, spiSpeed := 255 }) ∧
    ((∀ k, 1 ≤ k → k ≤ 4 → (List.replicate 32 255)[k]? = some 0) →
      ∃ s1, readConfig { config := { type := 9, pixelCount := 300, spiSpeed := 2 },
                         EEPROM := { cells := List.replicate 32 255, log := [] } } = .ok s1 ∧
        s1.config = { type := 0, pixelCount := 0, spiSpeed := 0 })) :=
  ⟨by decide,
   config_operations_cannot_fail
     { config := { type := 9, pixelCount := 300, spiSpeed := 2 },
       EEPROM := { cells := List.replicate 32 255, log := [] } } (by decide)⟩

/-- C9: the strip-type constants are exactly the values 0 to 11, each once and
in this order; each fits the one-byte `type` field, so a configuration of any
of these types has the same `type` after `writeConfig` and `readConfig`. -/
theorem stripTypes_values (E : EEPROMClass) (hlen : 5 ≤ E.cells.length) :
    (GENERIC = 0 ∧ LPD8806 = 1 ∧ WS2801 = 2 ∧ NEOPIXEL = 3 ∧ WS2811_400 = 4 ∧
      TM1809_TM1804 = 5 ∧ TM1803 = 6 ∧ UCS1903 = 7 ∧ SM16716 = 8 ∧ APA102 = 9 ∧
      LPD1886 = 10 ∧ P9813 = 11) ∧
    stripTypes = List.range 12 ∧
    ∀ t ∈ stripTypes, t < 256 ∧
      ∀ (pc sp : Nat) (c1 : config_t),
        ∃ s1, writeConfig { config := { type := t, pixelCount := pc, spiSpeed := sp },
                            EEPROM := E } = .ok s1 ∧
          ∃ s2, readConfig { config := c1, EEPROM := s1.EEPROM } = .ok s2 ∧
            s2.config.type = t := by
  refine ⟨by decide, by decide, ?_⟩
  intro t ht
  have hlt : t < 256 := by
    rw [show stripTypes = List.range 12 from by decide, List.mem_range] at ht
    omega
  refine ⟨hlt, ?_⟩
  intro pc sp c1
  refine ⟨_, writeConfig_eq _ E hlen, _, readConfig_eq c1 _ ?_, ?_⟩
  · simp only [recordCells_length]; exact hlen
  · obtain ⟨g1, _⟩ := recordCells_getElem? E.cells
      { type := t, pixelCount := pc, spiSpeed := sp } hlen
    simp only [storedConfig, List.getD_eq_getElem?_getD, g1, Option.getD_some, Nat.mod_mod]
    exact Nat.mod_eq_of_lt hlt

theorem stripTypes_values_witness :
    5 ≤ (List.replicate 8 255).length ∧
    ((GENERIC = 0 ∧ LPD8806 = 1 ∧ WS2801 = 2 ∧ NEOPIXEL = 3 ∧ WS2811_400 = 4 ∧
      TM1809_TM1804 = 5 ∧ TM1803 = 6 ∧ UCS1903 = 7 ∧ SM16716 = 8 ∧ APA102 = 9 ∧
      LPD1886 = 10 ∧ P9813 = 11) ∧
    stripTypes = List.range 12 ∧
    ∀ t ∈ stripTypes, t < 256 ∧
      ∀ (pc sp : Nat) (c1 : config_t),
        ∃ s1, writeConfig { config := { type := t, pixelCount := pc, spiSpeed := sp },
                            EEPROM := { cells := List.replicate 8 255, log := [] } } = .ok s1 ∧
          ∃ s2, readConfig { config := c1, EEPROM := s1.EEPROM } = .ok s2 ∧
            s2.config.type = t) :=
  ⟨by decide, stripTypes_values { cells := List.replicate 8 255, log := [] } (by decide)⟩

theorem recordCells_storedConfig (cells : List Nat) (hwf : ∀ b ∈ cells, b < 256)
    (h : 5 ≤ cells.length) : recordCells cells (storedConfig cells) = cells := by
  have b1 : cells[1] < 256 := hwf _ (List.getElem_mem _)
  have b2 : cells[2] < 256 := hwf _ (List.getElem_mem _)
  have b3 : cells[3] < 256 := hwf _ (List.getElem_mem _)
  have b4 : cells[4] < 256 := hwf _ (List.getElem_mem _)
  have e1 : cells[1]? = some cells[1] := List.getElem?_eq_getElem _
  have e2 : cells[2]? = some cells[2] := List.getElem?_eq_getElem _
  have e3 : cells[3]? = some cells[3] := List.getElem?_eq_getElem _
  have e4 : cells[4]? = some cells[4] := List.getElem?_eq_getElem _
  obtain ⟨g1, g2, g3, g4, g5⟩ := recordCells_getElem? cells (storedConfig cells) h
  have s1 : (storedConfig cells).type % 256 = cells[1] := by
    simp only [storedConfig, List.getD_eq_getElem?_getD, e1, Option.getD_some]; omega
  have s2 : (storedConfig cells).pixelCount % 256 = cells[2] := by
    simp only [storedConfig, List.getD_eq_getElem?_getD, e2, e3, Option.getD_some]; omega
  have s3 : (storedConfig cells).pixelCount / 256 % 256 = cells[3] := by
    simp only [storedConfig, List.getD_eq_getElem?_getD, e2, e3, Option.getD_some]; omega
  have s4 : (storedConfig cells).spiSpeed % 256 = cells[4] := by
    simp only [storedConfig, List.getD_eq_getElem?_getD, e4, Option.getD_some]; omega
  rw [s1] at g1; rw [s2] at g2; rw [s3] at g3; rw [s4] at g4
  apply List.ext_getElem?
  intro k
  by_cases hk : k = 0 ∨ 5 ≤ k
  · exact g5 k hk
  · have hk1 : k = 1 ∨ k = 2 ∨ k = 3 ∨ k = 4 := by omega
    rcases hk1 with rfl | rfl | rfl | rfl
    · exact g1.trans e1.symm
    · exact g2.trans e2.symm
    · exact g3.trans e3.symm
    · exact g4.trans e4.symm

/-- C10: on a store of bytes, `readConfig` followed by `writeConfig` leaves
every cell as it was; `readConfig` alone does not modify any cell, and its
result depends only on the cells at offsets 1 to 4. -/
theorem readConfig_then_writeConfig (c : config_t) (E : EEPROMClass) (hwf : E.WF)
    (hlen : 5 ≤ E.cells.length) :
    ∃ s1, readConfig { config := c, EEPROM := E } = .ok s1 ∧
      s1.EEPROM.cells = E.cells ∧
      (∃ s2, writeConfig s1 = .ok s2 ∧ s2.EEPROM.cells = E.cells) ∧
      ∀ (c1 : config_t) (E1 : EEPROMClass), 5 ≤ E1.cells.length →
        (∀ k, 1 ≤ k → k ≤ 4 → E1.cells[k]? = E.cells[k]?) →
        ∃ s3, readConfig { config := c1, EEPROM := E1 } = .ok s3 ∧ s3.config = s1.config := by
  refine ⟨_, readConfig_eq c E hlen, rfl, ⟨_, writeConfig_eq _ _ hlen, ?_⟩, ?_⟩
  · exact recordCells_storedConfig E.cells hwf hlen
  · intro c1 E1 h1 hagree
    refine ⟨_, readConfig_eq c1 E1 h1, ?_⟩
    simp only [storedConfig, List.getD_eq_getElem?_getD, hagree 1 (by omega) (by omega),
      hagree 2 (by omega) (by omega), hagree 3 (by omega) (by omega),
      hagree 4 (by omega) (by omega)]

theorem readConfig_then_writeConfig_witness :
    (({ cells := [7, 3, 150, 0, 0, 9, 255, 255], log := [] } : EEPROMClass).WF ∧
      5 ≤ ([7, 3, 150, 0, 0, 9, 255, 255] : List Nat).length) ∧
    ∃ s1, readConfig { config := { type := 9, pixelCount := 300, spiSpeed := 2 },
                       EEPROM := { cells := [7, 3, 150, 0, 0, 9, 255, 255], log := [] } } = .ok s1 ∧
      s1.EEPROM.cells = [7, 3, 150, 0, 0, 9, 255, 255] ∧
      (∃ s2, writeConfig s1 = .ok s2 ∧ s2.EEPROM.cells = [7, 3, 150, 0, 0, 9, 255, 255]) ∧
      ∀ (c1 : config_t) (E1 : EEPROMClass), 5 ≤ E1.cells.length →
        (∀ k, 1 ≤ k → k ≤ 4 → E1.cells[k]? = ([7, 3, 150, 0, 0, 9, 255, 255] : List Nat)[k]?) →
        ∃ s3, readConfig { config := c1, EEPROM := E1 } = .ok s3 ∧ s3.config = s1.config :=
  ⟨⟨by decide, by decide⟩,
   readConfig_then_writeConfig { type := 9, pixelCount := 300, spiSpeed := 2 }
     { cells := [7, 3, 150, 0, 0, 9, 255, 255], log := [] } (by decide) (by decide)⟩

end LightShowPi
